import Mathlib

/-!
# Verification of bomcheck.py (v1.7.3): BOM decomposition, normalization, reconciliation

A shallow embedding, in Lean 4, of the algorithmic core of `src/bomcheck.py`:

* `is_in`                        (pattern matcher, bomcheck.py `is_in`)
* `create_um_factor`             (unit normalizer, `create_um_factors`, numeric cells)
* `convert_sw_bom_to_sl_format`  (schema normalizer)
* `check_a_sw_bom_to_a_sl_bom`   (reconciler)
* `collect_checked_boms`         (batch orchestrator)
* `deconstructMultilevelBOM`     (hierarchy decomposer)

Modelling conventions:
* pandas DataFrames become lists of records; quantities and lengths are exact
  rationals (`ℚ`); a missing (NaN) cell of an outer join becomes `Option`.
* The duck-typed column renaming (`PARTNUMBER`/`PART NUMBER`/... to `Item`,
  legacy `Item` versus `Material`, `Qty`/`Quantity`/`Qty Per` to `Q`, ...) is
  schema resolution performed before any row processing; records here carry the
  canonical field names directly.
* `LENGTH` cells are modelled as numeric (the string-typed cells with embedded
  unit tokens of `create_um_factors` take the same `factorpool` path and are
  outside the claims checked here); with numeric cells every row of one table
  receives the same factor `from_um_factor * to_um_factor`.
* Python `str.strip` becomes `strTrim`, `str.split()` becomes `words`
  (whitespace tokenization dropping empty tokens), and `str.upper` /
  `str.lower` are modelled for the ASCII part numbers the program handles.
-/

namespace Bomcheck

/-- Substring test on character lists: `needle` occurs inside `hay`. -/
def isSubChars (needle hay : List Char) : Bool :=
  hay.tails.any (fun t => needle.isPrefixOf t)

/-- Python `needle in hay` for strings (substring containment). -/
def strContainsSub (hay needle : String) : Bool :=
  isSubChars needle.data hay.data

/-- Python `str.upper` restricted to ASCII letters (part numbers are ASCII). -/
def charUpper (c : Char) : Char :=
  if 97 ≤ c.toNat ∧ c.toNat ≤ 122 then Char.ofNat (c.toNat - 32) else c

/-- `str.upper` on a whole string. -/
def strUpper (s : String) : String :=
  ⟨s.data.map charUpper⟩

/-- Python `str.lower` restricted to ASCII letters. -/
def charLower (c : Char) : Char :=
  if 65 ≤ c.toNat ∧ c.toNat ≤ 90 then Char.ofNat (c.toNat + 32) else c

/-- `str.lower` on a whole string. -/
def strToLower (s : String) : String :=
  ⟨s.data.map charLower⟩

/-- Python `str.strip()`: remove whitespace from both ends. -/
def strTrim (s : String) : String :=
  ⟨((s.data.dropWhile Char.isWhitespace).reverse.dropWhile Char.isWhitespace).reverse⟩

/-- Helper for `words`: accumulate the current (reversed) token while
scanning the characters. -/
def wordsCharAux : List Char → List Char → List (List Char)
  | [], cur => if cur.isEmpty then [] else [cur.reverse]
  | c :: cs, cur =>
    if c.isWhitespace then
      if cur.isEmpty then wordsCharAux cs [] else cur.reverse :: wordsCharAux cs []
    else wordsCharAux cs (c :: cur)

/-- Python `str.split()` with no argument: split on runs of whitespace,
dropping empty tokens. -/
def words (s : String) : List String :=
  (wordsCharAux s.data []).map (fun l => ⟨l⟩)

/-- Lexicographic comparison of character lists by code point, the string
ordering Python and pandas use (a proper prefix sorts first). -/
def charsLt : List Char → List Char → Bool
  | [], [] => false
  | [], _ :: _ => true
  | _ :: _, [] => false
  | a :: as, b :: bs =>
    if a.toNat < b.toNat then true
    else if b.toNat < a.toNat then false
    else charsLt as bs

/-- Python `a < b` on strings (code-point lexicographic order). -/
def strLt (a b : String) : Bool :=
  charsLt a.data b.data

/-- Anchored glob matching on character lists: the translation
`'^' + fnmatch.translate(pat) + '$'` of `is_in` turns a glob pattern into a
regular expression that must cover the whole value; `*` matches any run of
characters and `?` any single character.  (Bracket classes of `fnmatch` are
not modelled; no pattern used by the program contains them.) -/
def globMatchChars : List Char → List Char → Bool
  | [], s => s.isEmpty
  | '*' :: ps, s => s.tails.any (fun t => globMatchChars ps t)
  | _ :: _, [] => false
  | '?' :: ps, _ :: cs => globMatchChars ps cs
  | p :: ps, c :: cs => p == c && globMatchChars ps cs

/-- Anchored glob match of a pattern against a full string. -/
def globMatch (pat s : String) : Bool :=
  globMatchChars pat.data s.data

/-- Pointwise content of `is_in` for one series element: the element (already
stripped) matches some `find` pattern and no `xcept` pattern. -/
def is_in_elem (find xcept : List String) (s : String) : Bool :=
  (find.any fun f => globMatch f (strTrim s)) && !(xcept.any fun x => globMatch x (strTrim s))

/-- bomcheck.py `is_in(find, xcept, series)`: values are stripped, each glob
pattern is translated to an anchored regex, the alternation of the `find`
regexes must match and (when `xcept` is nonempty) the alternation of the
`xcept` regexes must not; with an empty `find` list every value reports
`False`. -/
def is_in (find xcept : List String) (series : List String) : List Bool :=
  let series := series.map strTrim
  if find ≠ [] ∧ xcept ≠ [] then
    series.map (fun s =>
      (find.any fun f => globMatch f s) && !(xcept.any fun x => globMatch x s))
  else if find ≠ [] then
    series.map (fun s => find.any fun f => globMatch f s)
  else
    series.map (fun _ => false)

/-- The `factorpool` table of `create_um_factors`, in source declaration
order (row-major through the tuple literal); first matching token wins. -/
def factorpool : List (String × ℚ) :=
  [("in", 1/12),   ("ft", 1),   ("mm", 1/(25.4*12)),
   ("\"", 1/12),   ("'", 1),    ("milli", 1/(25.4*12)),
   ("”", 1/12),    ("’", 1),    ("cm", 10/(25.4*12)),
   ("yard", 3),    ("foot", 1), ("centi", 10/(25.4*12)),
   ("yd", 3),      ("feet", 1), ("m", 1000/(25.4*12))]

/-- `from_um` factor scan of `create_um_factors`: first `factorpool` token
occurring as a substring of the lowercased unit name wins; an unrecognized
unit falls back to the inch factor `1/12`. -/
def from_um_factor (from_um : String) : ℚ :=
  match factorpool.find? (fun kv => strContainsSub (strToLower from_um) kv.1) with
  | some kv => kv.2
  | none => 1/12

/-- `to_um` factor scan of `create_um_factors`: reciprocal of the first
matching token's factor; an unrecognized unit falls back to `1.0`
(foot-equivalent). -/
def to_um_factor (to_um : String) : ℚ :=
  match factorpool.find? (fun kv => strContainsSub (strToLower to_um) kv.1) with
  | some kv => kv.2⁻¹
  | none => 1

/-- Configuration consumed by the normalizer, from the global `cfg`
dictionary.  `drop` is the boolean state `cfg['drop']` has at every call
into `convert_sw_bom_to_sl_format` (the `bomcheck` hub overwrites the
initial pattern list with the drop flag before any BOM is processed). -/
structure Config where
  accuracy : ℕ
  discard_length : List String
  drop : Bool
  exceptions : List String
  from_um : String
  to_um : String
deriving Repr, DecidableEq

/-- Per-table multiplication factor of `create_um_factors` for numeric
length cells: `from_um_factor * to_um_factor`. -/
def create_um_factor (cfg : Config) : ℚ :=
  from_um_factor cfg.from_um * to_um_factor cfg.to_um

/-- One row of a (deconstructed, schema-resolved) SolidWorks BOM:
`Item`, `Q`, `Description` and the numeric `LENGTH` cell. -/
structure SwRow where
  item : String
  qty : ℚ
  descrip : String
  length : ℚ
deriving Repr, DecidableEq

/-- A SolidWorks assembly table; `hasLength` records whether the `LENGTH`
column exists (`'LENGTH' in df.columns`). -/
structure SwTable where
  rows : List SwRow
  hasLength : Bool
deriving Repr, DecidableEq

/-- One canonical (SyteLine-format) row produced by the normalizer:
`Item`, `Q`, `Description`, `U`.  The constant `Op`/`WC` columns added at
the end of `convert_sw_bom_to_sl_format` carry no per-row information and
are omitted. -/
structure CanonRow where
  item : String
  q : ℚ
  descrip : String
  um : String
deriving Repr, DecidableEq

/-- The row-wise stage of `convert_sw_bom_to_sl_format` (the rename and the
length-conversion block): with a `LENGTH` column, each row's length becomes
`length * qty * factor`, zeroed for items matching the `discard_length`
patterns; where that converted length reaches `0.00001` it is moved into the
quantity column and the unit becomes `"FT"`, otherwise
`Q = Q * 1 + LENGTH` and the unit becomes `"EA"`; without a `LENGTH` column
every unit is set to `"EA"`.  The source performs the epsilon comparison on
IEEE doubles; the exact-rational `≥` here transcribes the literal `>=`
test, and the concrete evaluations below only exercise it at inputs
bounded away from the epsilon, where double and rational arithmetic take
the same branch. -/
def convertRows (cfg : Config) (t : SwTable) : List CanonRow :=
  if t.hasLength then
    let factor := create_um_factor cfg
    let dlf := is_in cfg.discard_length [] (t.rows.map (fun r => r.item))
    (t.rows.zip dlf).map (fun rb =>
      let r := rb.1
      let len := r.length * r.qty * factor * (if rb.2 then 0 else 1)
      { item := r.item
        q := r.qty * (if len ≥ 1/100000 then 0 else 1) + len
        descrip := r.descrip
        um := if len ≥ 1/100000 then "FT" else "EA" })
  else
    t.rows.map (fun r =>
      { item := r.item, q := r.qty, descrip := r.descrip, um := "EA" })

/-- Insert a key into a strictly sorted key list, keeping it sorted and
duplicate-free (the sorted unique group keys of `df.groupby('Item')`). -/
def insertKey (s : String) : List String → List String
  | [] => [s]
  | k :: ks =>
    if strLt s k then s :: k :: ks
    else if s = k then k :: ks
    else k :: insertKey s ks

/-- The sorted, duplicate-free group keys of pandas `groupby`. -/
def uniqueSortedKeys (items : List String) : List String :=
  items.foldr insertKey []

/-- Aggregation functions of the `groupby` step:
`{'Q': 'sum', 'Description': 'first', 'U': 'first'}`. -/
def aggGroup (rows : List CanonRow) (k : String) : CanonRow :=
  let grp := rows.filter (fun r => r.item == k)
  { item := k
    q := (grp.map (fun r => r.q)).sum
    descrip := ((grp.head?).map (fun r => r.descrip)).getD ""
    um := ((grp.head?).map (fun r => r.um)).getD "" }

/-- `df.groupby('Item', as_index=False).aggregate(dd)`: one output row per
distinct item id, in sorted key order. -/
def groupTable (rows : List CanonRow) : List CanonRow :=
  (uniqueSortedKeys (rows.map (fun r => r.item))).map (aggGroup rows)

/-- Round-half-to-even on an exact rational, as Python `round` ties break. -/
def roundHalfEven (x : ℚ) : ℤ :=
  let f := ⌊x⌋
  let r := x - f
  if r < 1/2 then f
  else if 1/2 < r then f + 1
  else if f % 2 = 0 then f else f + 1

/-- `round(q, n)`: round to `n` decimal places, ties to even. -/
def roundTo (n : ℕ) (x : ℚ) : ℚ :=
  (roundHalfEven (x * 10 ^ n) : ℚ) / 10 ^ n

/-- `df['Q'] = round(df['Q'], cfg['accuracy'])`. -/
def roundStage (acc : ℕ) (rows : List CanonRow) : List CanonRow :=
  rows.map (fun r => { r with q := roundTo acc r.q })

/-- The drop step of `convert_sw_bom_to_sl_format`: when `cfg['drop']` is
`True` the rows whose item matches `is_in(cfg['drop'], cfg['exceptions'], ·)`
are removed.  Inside the branch `cfg['drop']` is the boolean `True` itself,
so the `find` argument `is_in` receives is `[str(True)]`, i.e. the single
literal pattern `"True"`. -/
def dropStage (cfg : Config) (rows : List CanonRow) : List CanonRow :=
  if cfg.drop then
    ((rows.zip (is_in ["True"] cfg.exceptions (rows.map (fun r => r.item)))).filterMap
      (fun rb => if rb.2 then none else some rb.1))
  else rows

/-- bomcheck.py `convert_sw_bom_to_sl_format`: rename to canonical columns,
convert/move lengths, group duplicate item ids (quantities summed,
description and unit from the first occurrence), round the quantity to
`cfg['accuracy']` decimals, and apply the drop step. -/
def convert_sw_bom_to_sl_format (cfg : Config) (t : SwTable) : List CanonRow :=
  dropStage cfg (roundStage cfg.accuracy (groupTable (convertRows cfg t)))

/-- One row of a (deconstructed, schema-resolved) SyteLine BOM: canonical
`Item`, `Q`, `Description`, `U`, plus whether the row's `Obsolete` cell is
non-null. -/
structure SlRow where
  item : String
  q : ℚ
  descrip : String
  um : String
  obsolete : Bool
deriving Repr, DecidableEq

/-- The merge indicator column `_merge` of `pd.merge(..., indicator=True)`. -/
inductive MergeInd
  | left_only
  | right_only
  | both
deriving Repr, DecidableEq

/-- One row of the outer join inside `check_a_sw_bom_to_a_sl_bom`, before
the flag columns are computed. -/
structure JoinRow where
  item : String
  q_sw : Option ℚ
  q_sl : Option ℚ
  descrip_sw : Option String
  descrip_sl : Option String
  um_sw : Option String
  um_sl : Option String
  ind : MergeInd
deriving Repr, DecidableEq

/-- A SolidWorks-side row paired with no SyteLine match: SyteLine cells NaN. -/
def leftRow (r : CanonRow) : JoinRow :=
  { item := r.item, q_sw := some r.q, q_sl := none,
    descrip_sw := some r.descrip, descrip_sl := none,
    um_sw := some r.um, um_sl := none, ind := MergeInd.left_only }

/-- A SyteLine-side row paired with no SolidWorks match: SolidWorks cells NaN. -/
def rightRow (s : SlRow) : JoinRow :=
  { item := s.item, q_sw := none, q_sl := some s.q,
    descrip_sw := none, descrip_sl := some s.descrip,
    um_sw := none, um_sl := some s.um, ind := MergeInd.right_only }

/-- A matched pair of rows sharing one item id. -/
def bothRow (r : CanonRow) (s : SlRow) : JoinRow :=
  { item := r.item, q_sw := some r.q, q_sl := some s.q,
    descrip_sw := some r.descrip, descrip_sl := some s.descrip,
    um_sw := some r.um, um_sl := some s.um, ind := MergeInd.both }

/-- `pd.merge(dfsw, dfsl, on='Item', how='outer', indicator=True)`: every
SolidWorks row paired with each equal-keyed SyteLine row (or alone when
unmatched), followed by the unmatched SyteLine rows. -/
def outerJoin (sw : List CanonRow) (sl : List SlRow) : List JoinRow :=
  (sw.map (fun r =>
    let ms := sl.filter (fun s => s.item == r.item)
    if ms.isEmpty then [leftRow r] else ms.map (bothRow r))).flatten
  ++ (sl.filter (fun s => sw.all (fun r => r.item != s.item))).map rightRow

/-- Insert into a list sorted by item id, after existing equal keys. -/
def insertByItem (r : JoinRow) : List JoinRow → List JoinRow
  | [] => [r]
  | x :: xs => if strLt r.item x.item then r :: x :: xs else x :: insertByItem r xs

/-- `dfmerged.sort_values(by=['Item'])`. -/
def sortByItem : List JoinRow → List JoinRow
  | [] => []
  | r :: rs => insertByItem r (sortByItem rs)

/-- `filtrQ`: both quantities present and differing by less than `.0051`
(a NaN comparison in pandas yields `False`). -/
def qMatch (r : JoinRow) : Bool :=
  match r.q_sw, r.q_sl with
  | some a, some b => decide (|a - b| < 51/10000)
  | _, _ => false

/-- `filtrM`: whitespace-tokenized descriptions are equal; a NaN on either
side compares unequal. -/
def dMatch (r : JoinRow) : Bool :=
  match r.descrip_sw, r.descrip_sl with
  | some a, some b => words a == words b
  | _, _ => false

/-- `astype('str').str.strip()` of a possibly-NaN unit cell: a NaN is
stringified to `"nan"` before stripping. -/
def uStr : Option String → String
  | some s => strTrim s
  | none => "nan"

/-- `filtrU`: stringified, stripped units are equal. -/
def uMatch (r : JoinRow) : Bool :=
  uStr r.um_sw == uStr r.um_sl

/-- `filtrI`: the join indicator shows the id present on both sides. -/
def iMatch (r : JoinRow) : Bool :=
  r.ind == MergeInd.both

/-- A match renders as the checkmark `"-"`, a mismatch as `"X"`. -/
def render (b : Bool) : String :=
  if b then "-" else "X"

/-- One row of the final merged table of `check_a_sw_bom_to_a_sl_bom`:
item id, the four flag columns `i`, `q`, `d`, `u`, then the side-by-side
quantity, description and unit columns. -/
structure MergedRow where
  item : String
  i : String
  q : String
  d : String
  u : String
  q_sw : Option ℚ
  q_sl : Option ℚ
  descrip_sw : Option String
  descrip_sl : Option String
  um_sw : Option String
  um_sl : Option String
deriving Repr, DecidableEq

/-- Flag rendering plus the duplicate-suppression multiplication
`~dfmerged['Item'].duplicated(keep=False) * flag`: a row whose item id
occurs more than once in the merged table has all four flags blanked to
the empty string. -/
def mkMerged (merged : List JoinRow) (r : JoinRow) : MergedRow :=
  let dup := 1 < merged.countP (fun x => x.item == r.item)
  let blank := fun (s : String) => if dup then "" else s
  { item := r.item
    i := blank (render (iMatch r))
    q := blank (render (qMatch r))
    d := blank (render (dMatch r))
    u := blank (render (uMatch r))
    q_sw := r.q_sw, q_sl := r.q_sl
    descrip_sw := r.descrip_sw, descrip_sl := r.descrip_sl
    um_sw := r.um_sw, um_sl := r.um_sl }

/-- SyteLine-side preprocessing of `check_a_sw_bom_to_a_sl_bom`: drop rows
whose `Obsolete` cell is non-null, then force item ids to upper case. -/
def slPreprocess (dfsl : List SlRow) : List SlRow :=
  (dfsl.filter (fun s => !s.obsolete)).map (fun s => { s with item := strUpper s.item })

/-- The sorted outer join `dfmerged` of `check_a_sw_bom_to_a_sl_bom`. -/
def checkMerged (dfsw : List CanonRow) (dfsl : List SlRow) : List JoinRow :=
  sortByItem (outerJoin dfsw (slPreprocess dfsl))

/-- bomcheck.py `check_a_sw_bom_to_a_sl_bom`: drop obsolete SyteLine rows,
force SyteLine item ids to upper case, outer-join on item id, sort by item
id, render the four match flags and blank them on duplicated ids.  (The
legacy `Item`-versus-`Material` and `Description`-versus-`Material
Description` column selection is schema resolution, performed before the
rows modelled here exist.) -/
def check_a_sw_bom_to_a_sl_bom (dfsw : List CanonRow) (dfsl : List SlRow) :
    List MergedRow :=
  (checkMerged dfsw dfsl).map (mkMerged (checkMerged dfsw dfsl))

/-- Python dict assignment on an association list: replace in place if the
key exists, else append. -/
def dicInsert {α : Type} (dic : List (String × α)) (k : String) (v : α) :
    List (String × α) :=
  if dic.any (fun kv => kv.1 == k) then
    dic.map (fun kv => if kv.1 == k then (k, v) else kv)
  else dic ++ [(k, v)]

/-- One iteration of the loop in `collect_checked_boms`: `if key in sldic`
reconcile, else tag with `'_sw'` into the lone dictionary. -/
def collectStep (cfg : Config) (sldic : List (String × List SlRow))
    (acc : List (String × List CanonRow) × List (String × List MergedRow))
    (kv : String × SwTable) :
    List (String × List CanonRow) × List (String × List MergedRow) :=
  match (sldic.find? (fun kv2 => kv2.1 == kv.1)) with
  | some kv2 =>
      (acc.1, acc.2 ++ [(kv.1,
        check_a_sw_bom_to_a_sl_bom (convert_sw_bom_to_sl_format cfg kv.2) kv2.2)])
  | none =>
      (acc.1 ++ [(kv.1 ++ "_sw", convert_sw_bom_to_sl_format cfg kv.2)], acc.2)

/-- bomcheck.py `collect_checked_boms`: for each SolidWorks assembly id, if
a SyteLine BOM with the same id exists, normalize and reconcile; otherwise
place the normalized SolidWorks BOM, keyed by the id with `'_sw'` appended,
into the lone dictionary. -/
def collect_checked_boms (cfg : Config)
    (swdic : List (String × SwTable)) (sldic : List (String × List SlRow)) :
    List (String × List CanonRow) × List (String × List MergedRow) :=
  swdic.foldl (collectStep cfg sldic) ([], [])

/-- Leftmost, non-overlapping deletion of the pattern `'.0'` of
`df['ITEM NO.'].str.replace('.0', '')`, with the regular-expression
semantics `str.replace` had in the pandas releases this program ran on
(no `regex=False` argument is passed): the pattern matches any character
followed by `'0'`. -/
def dot0Sub : List Char → List Char
  | c1 :: c2 :: rest =>
    if c2 = '0' then dot0Sub rest else c1 :: dot0Sub (c2 :: rest)
  | l => l

/-- The depth `deconstructMultilevelBOM` derives from an `ITEM NO.` cell:
`df['Level'] = df['ITEM NO.'].str.replace('.0', '').str.count('\.')`. -/
def levelFromItemNo (s : String) : ℕ :=
  (dot0Sub s.data).count '.'

/-- One row of a BOM entering `deconstructMultilevelBOM`: the cleaned part
number, the depth of the row (from the `Level` column, or derived via
`levelFromItemNo`), and the dataframe row label `idx` identifying the row. -/
structure BomRow where
  ptno : String
  level : ℕ
  idx : ℕ
deriving Repr, DecidableEq

/-- The loop state of the row walk in `deconstructMultilevelBOM`: the
previous row's part number `p` (`None` before the first row), the previous
depth `lvl`, the parent stack `poplist`, the registered assembly parents
`assys`, and the accumulated `level_pn` column. -/
structure WalkState where
  p : Option String
  lvl : ℕ
  poplist : List (Option String)
  assys : List (Option String)
  level_pn : List (Option String)
deriving Repr, DecidableEq

/-- One iteration of the row walk.  Depth 0 resets the stack and uses `top`
as the parent (registering it as an assembly unless it is the sentinel
`'TOPLEVEL'`); a depth increase pushes the previous row's part number as a
new parent unless already registered, in which case the literal sentinel
`'repeat'` is pushed; an equal depth reuses the top of stack; a depth
decrease pops `lvl - level` entries.  `poplist[-1]` on an empty stack
raises `IndexError` in the source, modelled as `none`. -/
def walkStep (top : String) (st : WalkState) (r : BomRow) : Option WalkState :=
  if r.level = 0 then
    some { p := some r.ptno, lvl := r.level, poplist := [],
           assys := if top ≠ "TOPLEVEL" then st.assys ++ [some top] else st.assys,
           level_pn := st.level_pn ++ [some top] }
  else if st.lvl < r.level then
    if st.p ∈ st.assys then
      some { p := some r.ptno, lvl := r.level,
             poplist := st.poplist ++ [some "repeat"], assys := st.assys,
             level_pn := st.level_pn ++ [some "repeat"] }
    else
      some { p := some r.ptno, lvl := r.level,
             poplist := st.poplist ++ [st.p], assys := st.assys ++ [st.p],
             level_pn := st.level_pn ++ [st.p] }
  else if r.level = st.lvl then
    match st.poplist.getLast? with
    | none => none
    | some x =>
      some { p := some r.ptno, lvl := r.level, poplist := st.poplist,
             assys := st.assys, level_pn := st.level_pn ++ [x] }
  else
    let poplist2 := st.poplist.take (st.poplist.length - (st.lvl - r.level))
    match poplist2.getLast? with
    | none => none
    | some x =>
      some { p := some r.ptno, lvl := r.level, poplist := poplist2,
             assys := st.assys, level_pn := st.level_pn ++ [x] }

/-- The whole row walk, from the initial state (`p = None`, `lvl = 0`,
empty stack and accumulators). -/
def walk (top : String) (rows : List BomRow) : Option WalkState :=
  rows.foldlM (walkStep top) { p := none, lvl := 0, poplist := [],
                               assys := [], level_pn := [] }

/-- One iteration of the grouping loop of `deconstructMultilevelBOM`: for a
registered assembly parent `k`, the table keyed `k.upper()` holds the rows
whose `Level_pn` equals `k`; a `None` parent makes `k.upper()` raise,
modelled as `none`. -/
def assysFoldStep (tagged : List (BomRow × Option String))
    (dic : List (String × List BomRow)) (k : Option String) :
    Option (List (String × List BomRow)) :=
  match k with
  | none => none
  | some s =>
    some (dicInsert dic (strUpper s)
      ((tagged.filter (fun tp => tp.2 == some s)).map (fun tp => tp.1)))

/-- bomcheck.py `deconstructMultilevelBOM` (grouping phase): after the walk,
for each registered assembly parent `k`, the table keyed `k.upper()` holds
the rows whose `Level_pn` equals `k`. -/
def deconstructMultilevelBOM (top : String) (rows : List BomRow) :
    Option (List (String × List BomRow)) :=
  match walk top rows with
  | none => none
  | some st =>
    st.assys.foldlM (assysFoldStep (rows.zip st.level_pn)) []

/-- Reading a canonical (already normalized) row back as input to the
normalizer: its output tables have no `LENGTH` column, so the length cell is
irrelevant (zero here) and `hasLength` is `false`. -/
def toSwRow (c : CanonRow) : SwRow :=
  { item := c.item, qty := c.q, descrip := c.descrip, length := 0 }

/-- A canonical table, viewed again as input to
`convert_sw_bom_to_sl_format` (no `LENGTH` column). -/
def toSwTable (c : List CanonRow) : SwTable :=
  { rows := c.map toSwRow, hasLength := false }

/-!
## General lemmas about the embedded functions
-/

/-- With an empty `find` list every value reports false. -/
theorem is_in_elem_empty_find (xcept : List String) (s : String) :
    is_in_elem [] xcept s = false := by
  simp [is_in_elem]

/-- With an empty `xcept` list only the `find` patterns matter. -/
theorem is_in_elem_empty_xcept (find : List String) (s : String) :
    is_in_elem find [] s = (find.any fun f => globMatch f (strTrim s)) := by
  simp [is_in_elem]

/-- The three branches of `is_in` compute one pointwise predicate. -/
theorem is_in_eq_map (find xcept : List String) (series : List String) :
    is_in find xcept series = series.map (is_in_elem find xcept) := by
  by_cases hf : find = []
  · subst hf
    rw [is_in, if_neg (fun h => h.1 rfl), if_neg (fun h => h rfl), List.map_map]
    exact List.map_congr_left (fun a _ => (is_in_elem_empty_find xcept a).symm)
  · by_cases hx : xcept = []
    · subst hx
      rw [is_in, if_neg (fun h => h.2 rfl), if_pos hf, List.map_map]
      exact List.map_congr_left (fun a _ => (is_in_elem_empty_xcept find a).symm)
    · rw [is_in, if_pos ⟨hf, hx⟩, List.map_map]
      exact List.map_congr_left (fun a _ => rfl)

/-- Element access into an `is_in` result. -/
theorem is_in_getElem (find xcept : List String) (series : List String) (i : ℕ)
    (s : String) (hs : series[i]? = some s) :
    (is_in find xcept series)[i]? = some (is_in_elem find xcept s) := by
  rw [is_in_eq_map, List.getElem?_map, hs]
  rfl

/-- Filtering rows against flags computed rowwise equals a plain filter. -/
theorem zip_map_filterMap {α : Type} (rows : List α) (g : α → Bool) :
    ((rows.zip (rows.map g)).filterMap
      (fun rb => if rb.2 then none else some rb.1)) =
    rows.filter (fun r => !(g r)) := by
  induction rows with
  | nil => rfl
  | cons r rs ih =>
    by_cases h : g r <;> simp [List.filter_cons, h, ih]

/-- The drop step is a rowwise filter against
`is_in([True], cfg['exceptions'], items)`. -/
theorem dropStage_eq_filter (cfg : Config) (rows : List CanonRow) :
    dropStage cfg rows =
      if cfg.drop then
        rows.filter (fun r => !(is_in_elem ["True"] cfg.exceptions r.item))
      else rows := by
  unfold dropStage
  by_cases h : cfg.drop
  · simp only [h, if_true]
    rw [is_in_eq_map, List.map_map]
    exact zip_map_filterMap rows (fun r => is_in_elem ["True"] cfg.exceptions r.item)
  · simp [h]

/-- Membership in an insertion does not change the underlying row set. -/
theorem mem_insertByItem (r x : JoinRow) (l : List JoinRow) :
    x ∈ insertByItem r l ↔ x = r ∨ x ∈ l := by
  induction l with
  | nil => simp [insertByItem]
  | cons y ys ih =>
    by_cases h : strLt r.item y.item
    · simp [insertByItem, h]
    · simp [insertByItem, h, ih]
      tauto

/-- Sorting the merged table permutes but does not change its rows. -/
theorem mem_sortByItem (x : JoinRow) (l : List JoinRow) :
    x ∈ sortByItem l ↔ x ∈ l := by
  induction l with
  | nil => simp [sortByItem]
  | cons y ys ih => simp [sortByItem, mem_insertByItem, ih]

/-- A row of the outer join marked present-on-both-sides carries an item id
that occurs on the SyteLine side. -/
theorem outerJoin_both_item {sw : List CanonRow} {sl : List SlRow} {j : JoinRow}
    (hj : j ∈ outerJoin sw sl) (hb : j.ind = MergeInd.both) :
    j.item ∈ sl.map (fun s => s.item) := by
  unfold outerJoin at hj
  rcases List.mem_append.1 hj with h | h
  · rcases List.mem_flatten.1 h with ⟨sub, hsub, hjsub⟩
    rcases List.mem_map.1 hsub with ⟨r, _, rfl⟩
    by_cases hempty : (sl.filter (fun s => s.item == r.item)).isEmpty
    · rw [if_pos hempty] at hjsub
      simp only [List.mem_singleton] at hjsub
      subst hjsub
      simp [leftRow] at hb
    · rw [if_neg hempty] at hjsub
      rcases List.mem_map.1 hjsub with ⟨s, hs, rfl⟩
      have hs2 := List.mem_filter.1 hs
      have : s.item = r.item := by
        have := hs2.2
        simpa using this
      refine List.mem_map.2 ⟨s, hs2.1, ?_⟩
      simp [bothRow, this]
  · rcases List.mem_map.1 h with ⟨s, _, rfl⟩
    simp [rightRow] at hb

/-- The count of an item id in the final merged table equals its count in
the joined table. -/
theorem countP_check (dfsw : List CanonRow) (dfsl : List SlRow) (s : String) :
    (check_a_sw_bom_to_a_sl_bom dfsw dfsl).countP (fun x => x.item == s) =
      (checkMerged dfsw dfsl).countP (fun j => j.item == s) := by
  unfold check_a_sw_bom_to_a_sl_bom
  rw [List.countP_map]
  rfl

/-- Rows of the final merged table are exactly the flag-rendered rows of
the joined table. -/
theorem mem_check (dfsw : List CanonRow) (dfsl : List SlRow) (r : MergedRow) :
    r ∈ check_a_sw_bom_to_a_sl_bom dfsw dfsl ↔
      ∃ j ∈ checkMerged dfsw dfsl, mkMerged (checkMerged dfsw dfsl) j = r := by
  unfold check_a_sw_bom_to_a_sl_bom
  exact List.mem_map

/-- Rows of the final merged table with an item id occurring exactly once
carry unblanked flags; their quantity flag renders the tolerance test. -/
theorem check_unique_q_flag (dfsw : List CanonRow) (dfsl : List SlRow)
    (r : MergedRow) (hr : r ∈ check_a_sw_bom_to_a_sl_bom dfsw dfsl)
    (hc : (check_a_sw_bom_to_a_sl_bom dfsw dfsl).countP (fun x => x.item == r.item) = 1) :
    ∃ j ∈ checkMerged dfsw dfsl,
      r.q = render (qMatch j) ∧ r.q_sw = j.q_sw ∧ r.q_sl = j.q_sl := by
  obtain ⟨j, hj, hjr⟩ := (mem_check dfsw dfsl r).1 hr
  refine ⟨j, hj, ?_⟩
  rw [countP_check] at hc
  have hitem : r.item = j.item := by rw [← hjr]; rfl
  rw [hitem] at hc
  have hdup : ¬ (1 < (checkMerged dfsw dfsl).countP (fun x => x.item == j.item)) := by
    omega
  rw [← hjr]
  simp [mkMerged, if_neg hdup]

/-!
## Claim theorems
-/

/-- C5: in `deconstructMultilevelBOM`, the depth derived from an `ITEM NO.`
cell is claimed to be the separator count of the string after stripping a
trailing dot-zero: `"3.1.2"` gives depth 2 and `"5.0"` gives depth 0 as
claimed, but `"1.01"` gives depth 0, not its separator count 1 — the
`str.replace('.0', '')` call deletes every occurrence of the pattern, not
only a trailing one, turning `"1.01"` into `"11"`, against the intent
documented by the source comment (stop `5.0` etc. slipping through). -/
theorem C5_itemno_depth_eval :
    levelFromItemNo "3.1.2" = 2 ∧ levelFromItemNo "5.0" = 0 ∧
    levelFromItemNo "1.01" = 0 ∧ "1.01".data.count '.' = 1 := by
  decide

/-- C4 counterexample: walking the rows `S(0), a(1), S(0), b(1)` with top
id `T`, the subassembly `S` repeats; the claim says the deeper row `b` is
grouped under the previously registered assembly `S`, but the produced
tables are `T = [S, S]` and `S = [a]`: row `b` is tagged with the sentinel
parent `'repeat'` and appears in no table at all. -/
theorem C4_repeat_counterexample :
    deconstructMultilevelBOM "T"
        [⟨"S", 0, 0⟩, ⟨"a", 1, 1⟩, ⟨"S", 0, 2⟩, ⟨"b", 1, 3⟩] =
      some [("T", [⟨"S", 0, 0⟩, ⟨"S", 0, 2⟩]), ("S", [⟨"a", 1, 1⟩])] ∧
    (⟨"b", 1, 3⟩ : BomRow) ∉ ([⟨"S", 0, 0⟩, ⟨"S", 0, 2⟩] : List BomRow) ∧
    (⟨"b", 1, 3⟩ : BomRow) ∉ ([⟨"a", 1, 1⟩] : List BomRow) := by
  decide

/-- C3 counterexample: a design-side id `"100200"` with no planning
counterpart is keyed `"100200_sw"` in the lone result set, not
`"100200_design"` as the claim states. -/
theorem C3_lone_suffix_counterexample :
    ((collect_checked_boms
        { accuracy := 2, discard_length := ["3086-*"], drop := false,
          exceptions := [], from_um := "inch", to_um := "feet" }
        [("100200", { rows := [{ item := "P", qty := 1, descrip := "d", length := 0 }],
                      hasLength := false })] []).1).map Prod.fst = ["100200_sw"] ∧
    "100200_design" ∉ ((collect_checked_boms
        { accuracy := 2, discard_length := ["3086-*"], drop := false,
          exceptions := [], from_um := "inch", to_um := "feet" }
        [("100200", { rows := [{ item := "P", qty := 1, descrip := "d", length := 0 }],
                      hasLength := false })] []).1).map Prod.fst := by
  decide

/-- C10 counterexample: the design id `"ABC"` and the planning id `"abc"`
differ only in letter case, yet after the planning side is upper-cased the
join unifies them into a single row whose presence flag is `"-"` — not two
distinct rows without `"-"` as the claim states. -/
theorem C10_case_join_counterexample :
    (check_a_sw_bom_to_a_sl_bom
        [{ item := "ABC", q := 1, descrip := "d", um := "EA" }]
        [{ item := "abc", q := 1, descrip := "d", um := "EA", obsolete := false }]).map
      (fun r => (r.item, r.i)) = [("ABC", "-")] := by
  decide

/-- C1 counterexample: when an item id is duplicated in the joined result
(here `"A"` appears twice on the planning side), the quantity flag of its
rows is blanked to the empty string even though the quantities agree within
the `0.0051` tolerance — the claim's dichotomy `"-"` versus `"X"` does not
hold on such rows. -/
theorem C1_blanked_quantity_counterexample :
    (check_a_sw_bom_to_a_sl_bom
        [{ item := "A", q := 1, descrip := "d", um := "EA" }]
        [{ item := "A", q := 1, descrip := "d", um := "EA", obsolete := false },
         { item := "A", q := 1, descrip := "d", um := "EA", obsolete := false }]).map
      (fun r => r.q) = ["", ""] ∧
    |(1 : ℚ) - 1| < 51/10000 ∧ ("" : String) ≠ "-" := by
  refine ⟨by decide, by norm_num, by decide⟩

/-- C1 (amended): for every row of the merged table whose item id occurs
exactly once, the quantity flag is `"-"` iff both quantities are present
and differ in absolute value by less than `0.0051`, and `"X"` otherwise;
rows with a duplicated item id instead carry a blank flag (see the
counterexample).  At the claimed boundary, design 10.000 against planning
10.0050 renders `"-"` and against 10.0051 renders `"X"`. -/
theorem C1_quantity_flag_amended :
    (∀ (dfsw : List CanonRow) (dfsl : List SlRow) (r : MergedRow),
        r ∈ check_a_sw_bom_to_a_sl_bom dfsw dfsl →
        (check_a_sw_bom_to_a_sl_bom dfsw dfsl).countP (fun x => x.item == r.item) = 1 →
        ((r.q = "-" ↔ ∃ a b, r.q_sw = some a ∧ r.q_sl = some b ∧ |a - b| < 51/10000) ∧
          (r.q = "-" ∨ r.q = "X"))) ∧
    (check_a_sw_bom_to_a_sl_bom
        [{ item := "A", q := 10, descrip := "d", um := "EA" }]
        [{ item := "A", q := 10.005, descrip := "d", um := "EA", obsolete := false }]).map
      (fun r => r.q) = ["-"] ∧
    (check_a_sw_bom_to_a_sl_bom
        [{ item := "A", q := 10, descrip := "d", um := "EA" }]
        [{ item := "A", q := 10.0051, descrip := "d", um := "EA", obsolete := false }]).map
      (fun r => r.q) = ["X"] := by
  refine ⟨?_, ?_, ?_⟩
  · intro dfsw dfsl r hr hc
    obtain ⟨j, _, hq, hqsw, hqsl⟩ := check_unique_q_flag dfsw dfsl r hr hc
    rw [hq, hqsw, hqsl]
    constructor
    · unfold render qMatch
      rcases hsw : j.q_sw with _ | a <;> rcases hsl : j.q_sl with _ | b <;>
        simp_all [render]
    · unfold render
      by_cases h : qMatch j <;> simp [h]
  · norm_num [check_a_sw_bom_to_a_sl_bom, checkMerged, slPreprocess, outerJoin, sortByItem,
      insertByItem, mkMerged, qMatch, iMatch, dMatch, uMatch, render, bothRow, strUpper,
      charUpper, words, uStr, abs_lt]
  · norm_num [check_a_sw_bom_to_a_sl_bom, checkMerged, slPreprocess, outerJoin, sortByItem,
      insertByItem, mkMerged, qMatch, iMatch, dMatch, uMatch, render, bothRow, strUpper,
      charUpper, words, uStr, abs_lt]

/-- C1 witness: the amended quantity-flag law applied at the concrete
single-sided row `"A"` (present only in the design table, planning side
`"B"`), whose quantity flag is `"X"`. -/
theorem C1_quantity_flag_amended_witness :
    (({ item := "A", i := "X", q := "X", d := "X", u := "X",
          q_sw := some 1, q_sl := none, descrip_sw := some "d", descrip_sl := none,
          um_sw := some "EA", um_sl := none } : MergedRow).q = "-" ↔
      ∃ a b, (some (1 : ℚ) = some a) ∧ ((none : Option ℚ) = some b) ∧ |a - b| < 51/10000) ∧
    (({ item := "A", i := "X", q := "X", d := "X", u := "X",
          q_sw := some 1, q_sl := none, descrip_sw := some "d", descrip_sl := none,
          um_sw := some "EA", um_sl := none } : MergedRow).q = "-" ∨
      ({ item := "A", i := "X", q := "X", d := "X", u := "X",
          q_sw := some 1, q_sl := none, descrip_sw := some "d", descrip_sl := none,
          um_sw := some "EA", um_sl := none } : MergedRow).q = "X") :=
  C1_quantity_flag_amended.1
    [{ item := "A", q := 1, descrip := "d", um := "EA" }]
    [{ item := "B", q := 1, descrip := "d", um := "EA", obsolete := false }]
    { item := "A", i := "X", q := "X", d := "X", u := "X",
      q_sw := some 1, q_sl := none, descrip_sw := some "d", descrip_sl := none,
      um_sw := some "EA", um_sl := none }
    (by decide) (by decide)

/-- C2: when an item id appears more than once in the merged table, every
row sharing that id has all four flag columns `i`, `q`, `d`, `u` blanked to
the empty string — never `"X"` and never `"-"`. -/
theorem C2_duplicate_blanking :
    ∀ (dfsw : List CanonRow) (dfsl : List SlRow) (r : MergedRow),
      r ∈ check_a_sw_bom_to_a_sl_bom dfsw dfsl →
      1 < (check_a_sw_bom_to_a_sl_bom dfsw dfsl).countP (fun x => x.item == r.item) →
      r.i = "" ∧ r.q = "" ∧ r.d = "" ∧ r.u = "" := by
  intro dfsw dfsl r hr hc
  obtain ⟨j, _, hjr⟩ := (mem_check dfsw dfsl r).1 hr
  rw [countP_check] at hc
  have hitem : r.item = j.item := by rw [← hjr]; rfl
  rw [hitem] at hc
  rw [← hjr]
  simp [mkMerged, if_pos hc]

/-- C2 witness: the blanking law applied at a merged table where `"A"`
appears twice (duplicated on the planning side). -/
theorem C2_duplicate_blanking_witness :
    ({ item := "A", i := "", q := "", d := "", u := "",
       q_sw := some 1, q_sl := some 1, descrip_sw := some "d", descrip_sl := some "d",
       um_sw := some "EA", um_sl := some "EA" } : MergedRow).i = "" ∧
    ({ item := "A", i := "", q := "", d := "", u := "",
       q_sw := some 1, q_sl := some 1, descrip_sw := some "d", descrip_sl := some "d",
       um_sw := some "EA", um_sl := some "EA" } : MergedRow).q = "" ∧
    ({ item := "A", i := "", q := "", d := "", u := "",
       q_sw := some 1, q_sl := some 1, descrip_sw := some "d", descrip_sl := some "d",
       um_sw := some "EA", um_sl := some "EA" } : MergedRow).d = "" ∧
    ({ item := "A", i := "", q := "", d := "", u := "",
       q_sw := some 1, q_sl := some 1, descrip_sw := some "d", descrip_sl := some "d",
       um_sw := some "EA", um_sl := some "EA" } : MergedRow).u = "" :=
  C2_duplicate_blanking
    [{ item := "A", q := 1, descrip := "d", um := "EA" }]
    [{ item := "A", q := 1, descrip := "d", um := "EA", obsolete := false },
     { item := "A", q := 1, descrip := "d", um := "EA", obsolete := false }]
    { item := "A", i := "", q := "", d := "", u := "",
      q_sw := some 1, q_sl := some 1, descrip_sw := some "d", descrip_sl := some "d",
      um_sw := some "EA", um_sl := some "EA" }
    (by decide) (by decide)

/-- C10 (amended): item ids are upper-cased only on the planning side
before the outer join, so a merged row whose item id is not among the
upper-cased planning ids — in particular any design id that differs from
its planning counterpart by containing a lower-case letter — is never
marked present-on-both-sides: its presence flag is `"X"` or blank, never
`"-"`.  A design id that is itself the upper-case form of a planning id is,
however, unified with it by the join (see the counterexample). -/
theorem C10_case_join_amended :
    ∀ (dfsw : List CanonRow) (dfsl : List SlRow) (r : MergedRow),
      r ∈ check_a_sw_bom_to_a_sl_bom dfsw dfsl →
      r.item ∉ (slPreprocess dfsl).map (fun s => s.item) →
      r.i ≠ "-" := by
  intro dfsw dfsl r hr hni
  obtain ⟨j, hj, hjr⟩ := (mem_check dfsw dfsl r).1 hr
  have hitem : r.item = j.item := by rw [← hjr]; rfl
  rw [← hjr]
  simp only [mkMerged]
  by_cases hdup : 1 < (checkMerged dfsw dfsl).countP (fun x => x.item == j.item)
  · simp [if_pos hdup]
  · simp only [if_neg hdup]
    have hnb : ¬ (iMatch j = true) := by
      intro hb
      have hb2 : j.ind = MergeInd.both := by
        simpa [iMatch] using hb
      have := outerJoin_both_item ((mem_sortByItem j _).1 hj) hb2
      rw [← hitem] at this
      exact hni this
    unfold render iMatch at hnb ⊢
    simp only [Bool.not_eq_true] at hnb
    rw [hnb]
    decide

/-- C10 witness: the amended law applied at the design row `"abc"` (its id
contains lower-case letters, the planning side holds `"abc"`, upper-cased
to `"ABC"` by the preprocessing): its presence flag is not `"-"`. -/
theorem C10_case_join_amended_witness :
    ({ item := "abc", i := "X", q := "X", d := "X", u := "X",
       q_sw := some 1, q_sl := none, descrip_sw := some "d", descrip_sl := none,
       um_sw := some "EA", um_sl := none } : MergedRow).i ≠ "-" :=
  C10_case_join_amended
    [{ item := "abc", q := 1, descrip := "d", um := "EA" }]
    [{ item := "abc", q := 1, descrip := "d", um := "EA", obsolete := false }]
    { item := "abc", i := "X", q := "X", d := "X", u := "X",
      q_sw := some 1, q_sl := none, descrip_sw := some "d", descrip_sl := none,
      um_sw := some "EA", um_sl := none }
    (by decide) (by decide)

/-- Folding the batch loop from any accumulator only appends to the two
result dictionaries. -/
theorem collect_foldl_acc (cfg : Config) (sldic : List (String × List SlRow)) :
    ∀ (swdic : List (String × SwTable))
      (acc : List (String × List CanonRow) × List (String × List MergedRow)),
      swdic.foldl (collectStep cfg sldic) acc =
        (acc.1 ++ (swdic.foldl (collectStep cfg sldic) ([], [])).1,
         acc.2 ++ (swdic.foldl (collectStep cfg sldic) ([], [])).2) := by
  intro swdic
  induction swdic with
  | nil => intro acc; simp
  | cons kv swdic ih =>
    intro acc
    rw [List.foldl_cons, List.foldl_cons, ih (collectStep cfg sldic acc kv),
      ih (collectStep cfg sldic ([], []) kv)]
    unfold collectStep
    rcases h : (sldic.find? (fun kv2 => kv2.1 == kv.1)) with _ | kv2 <;> simp [h]

/-- Prepending a planning entry whose key never occurs among the design
keys leaves the batch loop unchanged. -/
theorem collect_prepend_aux (cfg : Config) (sldic : List (String × List SlRow))
    (p : String) (t : List SlRow) :
    ∀ (swdic : List (String × SwTable))
      (acc : List (String × List CanonRow) × List (String × List MergedRow)),
      p ∉ swdic.map Prod.fst →
      swdic.foldl (collectStep cfg ((p, t) :: sldic)) acc =
        swdic.foldl (collectStep cfg sldic) acc := by
  intro swdic
  induction swdic with
  | nil => intro acc _; rfl
  | cons kv swdic ih =>
    intro acc hp
    have hne : ((p, t).1 == kv.1) = false := by
      have : p ≠ kv.1 := fun h => hp (by simp [h])
      simpa using this
    rw [List.foldl_cons, List.foldl_cons]
    have hstep : collectStep cfg ((p, t) :: sldic) acc kv = collectStep cfg sldic acc kv := by
      unfold collectStep
      rw [List.find?_cons_of_neg _ (by simp [hne])]
    rw [hstep]
    exact ih _ (fun h => hp (List.mem_cons_of_mem _ h))

/-- C3 (amended): for every design-side assembly id with no planning-side
table of the same id, the normalized design table is placed in the lone
result set under a key formed by appending the suffix `"_sw"` (the
design-file suffix) to the id — not `"_design"`; the lone keys are exactly
the unmatched design ids so tagged.  A planning-side entry whose id has no
design counterpart is never consulted: adding such an entry leaves both
result sets unchanged, so it produces no output anywhere. -/
theorem C3_lone_and_silent_amended :
    (∀ (cfg : Config) (swdic : List (String × SwTable))
        (sldic : List (String × List SlRow)),
        ((collect_checked_boms cfg swdic sldic).1).map Prod.fst =
          (swdic.filter (fun kv => ((sldic.find? (fun kv2 => kv2.1 == kv.1)).isNone))).map
            (fun kv => kv.1 ++ "_sw")) ∧
    (∀ (cfg : Config) (swdic : List (String × SwTable))
        (sldic : List (String × List SlRow)) (p : String) (t : List SlRow),
        p ∉ swdic.map Prod.fst →
        collect_checked_boms cfg swdic ((p, t) :: sldic) =
          collect_checked_boms cfg swdic sldic) := by
  constructor
  · intro cfg swdic sldic
    induction swdic with
    | nil => rfl
    | cons kv swdic ih =>
      unfold collect_checked_boms at ih ⊢
      rw [List.foldl_cons, collect_foldl_acc]
      rcases h : (sldic.find? (fun kv2 => kv2.1 == kv.1)) with _ | kv2
      · simp only [collectStep, h]
        simp [List.filter_cons, h, ih]
      · simp only [collectStep, h]
        simp [List.filter_cons, h, ih]
  · intro cfg swdic sldic p t hp
    unfold collect_checked_boms
    exact collect_prepend_aux cfg sldic p t swdic ([], []) hp

/-- C3 witness: the amended law applied at a one-entry design dictionary
(id `"100200"`) and an unmatched planning entry (id `"999999"`): the
planning-only entry changes nothing. -/
theorem C3_lone_and_silent_amended_witness :
    "999999" ∉
      ([("100200", ({ rows := [{ item := "P", qty := 1, descrip := "d", length := 0 }], hasLength := false } : SwTable))]).map Prod.fst ∧
    collect_checked_boms
        { accuracy := 2, discard_length := ["3086-*"], drop := false,
          exceptions := [], from_um := "inch", to_um := "feet" }
        [("100200", { rows := [{ item := "P", qty := 1, descrip := "d", length := 0 }], hasLength := false })]
        (("999999", ([] : List SlRow)) :: []) =
      collect_checked_boms
        { accuracy := 2, discard_length := ["3086-*"], drop := false,
          exceptions := [], from_um := "inch", to_um := "feet" }
        [("100200", { rows := [{ item := "P", qty := 1, descrip := "d", length := 0 }], hasLength := false })]
        [] :=
  ⟨by decide,
    C3_lone_and_silent_amended.2
      { accuracy := 2, discard_length := ["3086-*"], drop := false,
        exceptions := [], from_um := "inch", to_um := "feet" }
      [("100200", { rows := [{ item := "P", qty := 1, descrip := "d", length := 0 }], hasLength := false })]
      [] "999999" [] (by decide)⟩

/-- The grouping fold of `deconstructMultilevelBOM` only produces tables of
the form "all rows tagged with one registered assembly parent". -/
theorem assysFold_spec (tagged : List (BomRow × Option String)) :
    ∀ (assys A : List (Option String)), (∀ k ∈ assys, k ∈ A) →
    ∀ (dic0 dic : List (String × List BomRow)),
      assys.foldlM (assysFoldStep tagged) dic0 = some dic →
      (∀ kt ∈ dic0, ∃ a, (some a) ∈ A ∧
        kt.2 = ((tagged.filter (fun tp => tp.2 == some a)).map (fun tp => tp.1))) →
      ∀ kt ∈ dic, ∃ a, (some a) ∈ A ∧
        kt.2 = ((tagged.filter (fun tp => tp.2 == some a)).map (fun tp => tp.1)) := by
  intro assys
  induction assys with
  | nil =>
    intro A _ dic0 dic hfold hinv
    have : dic0 = dic := by simpa using hfold
    subst this
    exact hinv
  | cons k ks ih =>
    intro A hsub dic0 dic hfold hinv
    rw [List.foldlM_cons] at hfold
    rcases k with _ | s
    · simp [assysFoldStep] at hfold
    · simp only [assysFoldStep, Option.some_bind] at hfold
      refine ih A (fun x hx => hsub x (List.mem_cons_of_mem _ hx)) _ dic hfold ?_
      intro kt hkt
      have hsA : (some s) ∈ A := hsub (some s) (List.mem_cons_self _ _)
      unfold dicInsert at hkt
      by_cases hany : (dic0.any (fun kv => kv.1 == strUpper s)) = true
      · rw [if_pos hany] at hkt
        rcases List.mem_map.1 hkt with ⟨kv, hkv, rfl⟩
        by_cases heq : (kv.1 == strUpper s) = true
        · rw [if_pos heq]
          exact ⟨s, hsA, rfl⟩
        · rw [if_neg (by simp_all)]
          exact hinv kv hkv
      · rw [if_neg hany] at hkt
        rcases List.mem_append.1 hkt with h | h
        · exact hinv kt h
        · have : kt = (strUpper s,
              (tagged.filter (fun tp => tp.2 == some s)).map (fun tp => tp.1)) := by
            simpa using h
          subst this
          exact ⟨s, hsA, rfl⟩

/-- C4 (amended): during the row walk of `deconstructMultilevelBOM`, when a
row's depth exceeds the previous row's depth and the previous row's item id
was already pushed as an assembly parent earlier in the walk, that
assembly is not registered again (the assembly list is unchanged, so no
duplicate assembly table arises), but the deeper rows are not grouped under
the previously registered assembly id: they are tagged with the sentinel
parent `'repeat'`, and — provided no part in the registered assembly list
is literally named `'repeat'` — every row of every produced assembly table
carries a non-`'repeat'` tag, so the `'repeat'`-tagged rows are omitted
from all tables. -/
theorem C4_repeat_amended :
    (∀ (top : String) (st : WalkState) (r : BomRow),
        r.level ≠ 0 → st.lvl < r.level → st.p ∈ st.assys →
        walkStep top st r = some
          { p := some r.ptno, lvl := r.level,
            poplist := st.poplist ++ [some "repeat"], assys := st.assys,
            level_pn := st.level_pn ++ [some "repeat"] }) ∧
    (∀ (top : String) (rows : List BomRow) (st : WalkState)
        (dic : List (String × List BomRow)) (k : String) (tbl : List BomRow)
        (row : BomRow),
        walk top rows = some st →
        deconstructMultilevelBOM top rows = some dic →
        (some "repeat") ∉ st.assys →
        (k, tbl) ∈ dic → row ∈ tbl →
        ∃ tp ∈ rows.zip st.level_pn, tp.1 = row ∧ tp.2 ≠ some "repeat") := by
  constructor
  · intro top st r h0 hlt hmem
    simp [walkStep, h0, Nat.not_lt.2 (Nat.le_of_lt hlt), hlt, hmem]
  · intro top rows st dic k tbl row hwalk hdec hrep hkt hrow
    unfold deconstructMultilevelBOM at hdec
    rw [hwalk] at hdec
    have hspec := assysFold_spec (rows.zip st.level_pn) st.assys st.assys
      (fun _ h => h) [] dic hdec (by simp) (k, tbl) hkt
    obtain ⟨a, haA, htbl⟩ := hspec
    have hane : a ≠ "repeat" := by
      intro h
      subst h
      exact hrep haA
    have htbl2 : tbl = List.map (fun tp => tp.1)
        (List.filter (fun tp => tp.2 == some a) (rows.zip st.level_pn)) := htbl
    rw [htbl2] at hrow
    rcases List.mem_map.1 hrow with ⟨tp, htp, rfl⟩
    have htp2 := List.mem_filter.1 htp
    refine ⟨tp, htp2.1, rfl, ?_⟩
    have : tp.2 = some a := by simpa using htp2.2
    rw [this]
    intro hco
    exact hane (by injection hco)

/-- C4 witness: the repeat branch applied at the walk state reached just
before row `b(1)` in the counterexample walk (previous row `S` at depth 0,
`S` already registered). -/
theorem C4_repeat_amended_witness :
    walkStep "T"
        { p := some "S", lvl := 0, poplist := [],
          assys := [some "T", some "S", some "T"],
          level_pn := [some "T", some "S", some "T"] }
        { ptno := "b", level := 1, idx := 3 } =
      some { p := some "b", lvl := 1, poplist := [some "repeat"],
             assys := [some "T", some "S", some "T"],
             level_pn := [some "T", some "S", some "T", some "repeat"] } :=
  C4_repeat_amended.1 "T"
    { p := some "S", lvl := 0, poplist := [],
      assys := [some "T", some "S", some "T"],
      level_pn := [some "T", some "S", some "T"] }
    { ptno := "b", level := 1, idx := 3 }
    (by decide) (by decide) (by decide)

/-- C6 counterexample: with unit conversion inch-to-feet (factor 1/12) and
no suppression, a row with quantity 3 and length 0.00003 has converted
length 7.5e-6 — safely below the epsilon 1e-5, far enough from the boundary
that the source's IEEE-double evaluation takes the same branch — so the
unit is marked `"EA"` as the claim says, but the quantity is not left
as-is: the else-branch computes `Q = Q*1 + LENGTH`, so the quantity becomes
3 + 7.5e-6, not 3. -/
theorem C6_length_epsilon_counterexample :
    convertRows
        { accuracy := 8, discard_length := [], drop := false, exceptions := [],
          from_um := "inch", to_um := "feet" }
        { rows := [{ item := "B", qty := 3, descrip := "d2", length := 0.00003 }],
          hasLength := true } =
      [{ item := "B", q := 3 + 3/400000, descrip := "d2", um := "EA" }] ∧
    (0.00003 : ℚ) * 3 * (1/12) < 1/100000 ∧
    (3 + 3/400000 : ℚ) ≠ 3 := by
  have hf : create_um_factor { accuracy := 8, discard_length := [], drop := false, exceptions := [], from_um := "inch", to_um := "feet" } = 1/12 := by
    rw [create_um_factor, show from_um_factor "inch" = 1/12 from rfl,
      show to_um_factor "feet" = (1:ℚ)⁻¹ from rfl]
    norm_num
  refine ⟨?_, by norm_num, by norm_num⟩
  norm_num [convertRows, is_in, hf]

/-- C6 (amended): in `convert_sw_bom_to_sl_format`, for any row whose
converted length (length times quantity times unit factor, zeroed for items
matching the exemption patterns) reaches the epsilon `1e-5` (the source's
literal test is `>=`; away from the boundary this coincides with the
claim's "exceeds"), the converted length is moved into the quantity field
and the unit is marked `"FT"`; otherwise the unit is marked `"EA"` and the
quantity is not left as-is: it becomes the original quantity plus the
(sub-epsilon) converted length — exactly the original quantity only when
that residue is zero, e.g. for exempted items. -/
theorem C6_length_conversion_amended :
    ∀ (cfg : Config) (t : SwTable) (i : ℕ) (r : SwRow),
      t.hasLength = true → t.rows[i]? = some r →
      (convertRows cfg t)[i]? = some (
        if r.length * r.qty * create_um_factor cfg *
            (if is_in_elem cfg.discard_length [] r.item then 0 else 1) ≥ 1/100000 then
          { item := r.item,
            q := r.length * r.qty * create_um_factor cfg *
              (if is_in_elem cfg.discard_length [] r.item then 0 else 1),
            descrip := r.descrip, um := "FT" }
        else
          { item := r.item,
            q := r.qty + r.length * r.qty * create_um_factor cfg *
              (if is_in_elem cfg.discard_length [] r.item then 0 else 1),
            descrip := r.descrip, um := "EA" }) := by
  intro cfg t i r hlen hr
  unfold convertRows
  rw [hlen]
  simp only [if_true]
  rw [List.getElem?_map]
  have hz : (t.rows.zip (is_in cfg.discard_length []
      (t.rows.map (fun r => r.item))))[i]? =
      some (r, is_in_elem cfg.discard_length [] r.item) := by
    rw [List.getElem?_zip_eq_some]
    refine ⟨hr, ?_⟩
    exact is_in_getElem _ _ _ i r.item (by rw [List.getElem?_map, hr]; rfl)
  rw [hz]
  simp only [Option.map_some']
  by_cases hge : r.length * r.qty * create_um_factor cfg *
      (if is_in_elem cfg.discard_length [] r.item then 0 else 1) ≥ 1/100000
  · simp only [if_pos hge, mul_zero, zero_add]
  · simp only [if_neg hge, mul_one]

/-- C6 witness: the amended per-row law applied at a one-row table with
zero quantity and length (converted length 0, below the epsilon): quantity
stays 0 + 0 and the unit is `"EA"`. -/
theorem C6_length_conversion_amended_witness :
    (convertRows
        { accuracy := 0, discard_length := [], drop := false, exceptions := [],
          from_um := "", to_um := "" }
        { rows := [{ item := "A", qty := 0, descrip := "d", length := 0 }],
          hasLength := true })[0]? = some (
      if (0 : ℚ) * 0 * create_um_factor
            { accuracy := 0, discard_length := [], drop := false, exceptions := [],
              from_um := "", to_um := "" } *
            (if is_in_elem [] [] "A" then 0 else 1) ≥ 1/100000 then
        { item := "A",
          q := (0 : ℚ) * 0 * create_um_factor
              { accuracy := 0, discard_length := [], drop := false, exceptions := [],
                from_um := "", to_um := "" } *
            (if is_in_elem [] [] "A" then 0 else 1),
          descrip := "d", um := "FT" }
      else
        { item := "A",
          q := (0 : ℚ) + (0 : ℚ) * 0 * create_um_factor
              { accuracy := 0, discard_length := [], drop := false, exceptions := [],
                from_um := "", to_um := "" } *
            (if is_in_elem [] [] "A" then 0 else 1),
          descrip := "d", um := "EA" }) :=
  C6_length_conversion_amended
    { accuracy := 0, discard_length := [], drop := false, exceptions := [],
      from_um := "", to_um := "" }
    { rows := [{ item := "A", qty := 0, descrip := "d", length := 0 }],
      hasLength := true }
    0 { item := "A", qty := 0, descrip := "d", length := 0 } rfl rfl

/-- C8: `is_in` marks a value true iff the (stripped) full value matches at
least one `find` glob pattern — anchored, `*` standing for any run of
characters — and matches no `xcept` pattern; an empty `find` list yields
false for every value; consequently, in the drop step of the normalizer a
row whose item id matches an exception pattern is never dropped (exceptions
win over drop).  The spec's instance: `"3086-025-025"` fully matches the
drop-style pattern `"3*-025"` and the exception pattern `"3086-*-025"`,
and `is_in` reports false for it. -/
theorem C8_pattern_matcher :
    (∀ (find xcept series : List String) (i : ℕ) (s : String),
        series[i]? = some s →
        (is_in find xcept series)[i]? = some
          ((find.any fun f => globMatch f (strTrim s)) &&
            !(xcept.any fun x => globMatch x (strTrim s)))) ∧
    (∀ (xcept series : List String),
        is_in [] xcept series = series.map (fun _ => false)) ∧
    (∀ (cfg : Config) (t : SwTable) (r : CanonRow),
        r ∈ roundStage cfg.accuracy (groupTable (convertRows cfg t)) →
        (cfg.exceptions.any fun x => globMatch x (strTrim r.item)) = true →
        r ∈ convert_sw_bom_to_sl_format cfg t) ∧
    (globMatch "3*-025" "3086-025-025" = true ∧
      globMatch "3086-*-025" "3086-025-025" = true ∧
      is_in ["3*-025"] ["3086-*-025"] ["3086-025-025"] = [false]) := by
  refine ⟨?_, ?_, ?_, by decide⟩
  · intro find xcept series i s hs
    exact is_in_getElem find xcept series i s hs
  · intro xcept series
    rw [is_in_eq_map]
    exact List.map_congr_left (fun a _ => is_in_elem_empty_find xcept a)
  · intro cfg t r hr hx
    unfold convert_sw_bom_to_sl_format
    rw [dropStage_eq_filter]
    by_cases hd : cfg.drop
    · rw [if_pos hd]
      refine List.mem_filter.2 ⟨hr, ?_⟩
      simp [is_in_elem, hx]
    · rw [if_neg hd]
      exact hr

/-- C8 witness: the pointwise law applied at the spec's instance — the
value `"3086-025-025"` against the drop pattern `"3*-025"` and the
exception pattern `"3086-*-025"`. -/
theorem C8_pattern_matcher_witness :
    (is_in ["3*-025"] ["3086-*-025"] ["3086-025-025"])[0]? = some
      (((["3*-025"] : List String).any fun f => globMatch f (strTrim "3086-025-025")) &&
        !((["3086-*-025"] : List String).any fun x => globMatch x (strTrim "3086-025-025"))) :=
  C8_pattern_matcher.1 ["3*-025"] ["3086-*-025"] ["3086-025-025"] 0 "3086-025-025" rfl

/-- The code-point order is irreflexive. -/
theorem charsLt_irrefl : ∀ l : List Char, charsLt l l = false := by
  intro l
  induction l with
  | nil => rfl
  | cons a as ih => simp [charsLt, ih]

/-- The code-point order is transitive. -/
theorem charsLt_trans : ∀ l m n : List Char,
    charsLt l m = true → charsLt m n = true → charsLt l n = true := by
  intro l
  induction l with
  | nil =>
    intro m n h1 h2
    rcases m with _ | ⟨b, bs⟩
    · exact absurd h1 (by simp [charsLt])
    · rcases n with _ | ⟨c, cs⟩
      · exact absurd h2 (by simp [charsLt])
      · rfl
  | cons a as ih =>
    intro m n h1 h2
    rcases m with _ | ⟨b, bs⟩
    · exact absurd h1 (by simp [charsLt])
    · rcases n with _ | ⟨c, cs⟩
      · exact absurd h2 (by simp [charsLt])
      · simp only [charsLt] at h1 h2 ⊢
        by_cases hab : a.toNat < b.toNat <;> by_cases hbc : b.toNat < c.toNat
        · simp [Nat.lt_trans hab hbc]
        · by_cases hcb : c.toNat < b.toNat
          · simp [hbc, hcb] at h2
          · have : b.toNat = c.toNat := by omega
            simp [this ▸ hab]
        · by_cases hba : b.toNat < a.toNat
          · simp [hab, hba] at h1
          · have : a.toNat = b.toNat := by omega
            simp [this, hbc]
        · by_cases hba : b.toNat < a.toNat
          · simp [hab, hba] at h1
          · by_cases hcb : c.toNat < b.toNat
            · simp [hbc, hcb] at h2
            · simp only [if_neg hab, if_neg hba, if_neg hbc, if_neg hcb] at h1 h2
              rw [if_neg (by omega), if_neg (by omega)]
              exact ih bs cs h1 h2

/-- Characters with equal code points are equal. -/
theorem char_toNat_inj {a b : Char} (h : a.toNat = b.toNat) : a = b :=
  Char.ext (UInt32.ext h)

/-- Two lists neither below the other in the code-point order are equal. -/
theorem charsLt_total : ∀ l m : List Char,
    charsLt l m = false → charsLt m l = false → l = m := by
  intro l
  induction l with
  | nil =>
    intro m h1 _
    rcases m with _ | ⟨b, bs⟩
    · rfl
    · exact absurd h1 (by simp [charsLt])
  | cons a as ih =>
    intro m h1 h2
    rcases m with _ | ⟨b, bs⟩
    · exact absurd h2 (by simp [charsLt])
    · simp only [charsLt] at h1 h2
      by_cases hab : a.toNat < b.toNat
      · simp [hab] at h1
      · by_cases hba : b.toNat < a.toNat
        · simp [hab, hba] at h2
        · have he : a = b :=
            char_toNat_inj (by omega)
          simp only [hab, hba, if_false] at h1 h2
          rw [he, ih bs h1 h2]

/-- `strLt` facts lifted to strings. -/
theorem strLt_irrefl (a : String) : strLt a a = false :=
  charsLt_irrefl a.data

theorem strLt_trans {a b c : String} (h1 : strLt a b = true) (h2 : strLt b c = true) :
    strLt a c = true :=
  charsLt_trans a.data b.data c.data h1 h2

theorem strLt_total {a b : String} (h1 : strLt a b = false) (h2 : strLt b a = false) :
    a = b := by
  rcases a with ⟨da⟩
  rcases b with ⟨db⟩
  rw [charsLt_total da db h1 h2]

theorem strLt_ne {a b : String} (h : strLt a b = true) : a ≠ b := by
  intro he
  subst he
  rw [strLt_irrefl] at h
  cases h

/-- Membership through `insertKey`. -/
theorem mem_insertKey (s a : String) (l : List String) :
    a ∈ insertKey s l ↔ a = s ∨ a ∈ l := by
  induction l with
  | nil => simp [insertKey]
  | cons k ks ih =>
    by_cases h1 : strLt s k
    · simp [insertKey, h1]
    · by_cases h2 : s = k
      · subst h2
        simp [insertKey, h1]
      · simp [insertKey, h1, h2, ih]
        tauto

/-- `insertKey` preserves strict sortedness. -/
theorem pairwise_insertKey (s : String) (l : List String)
    (hl : l.Pairwise (fun a b => strLt a b = true)) :
    (insertKey s l).Pairwise (fun a b => strLt a b = true) := by
  induction l with
  | nil => simp [insertKey]
  | cons k ks ih =>
    rcases List.pairwise_cons.1 hl with ⟨hk, hks⟩
    by_cases h1 : strLt s k
    · rw [insertKey, if_pos h1]
      refine List.pairwise_cons.2 ⟨?_, hl⟩
      intro b hb
      rcases List.mem_cons.1 hb with rfl | hb
      · exact h1
      · exact strLt_trans h1 (hk b hb)
    · by_cases h2 : s = k
      · rw [insertKey, if_neg h1, if_pos h2]
        exact hl
      · rw [insertKey, if_neg h1, if_neg h2]
        refine List.pairwise_cons.2 ⟨?_, ih hks⟩
        intro b hb
        rcases (mem_insertKey s b ks).1 hb with rfl | hb
        · rcases hs : strLt k b with _ | _
          · exact absurd (strLt_total (by simpa using h1) hs) h2
          · rfl
        · exact hk b hb

/-- The grouping keys are strictly sorted. -/
theorem usk_pairwise (l : List String) :
    (uniqueSortedKeys l).Pairwise (fun a b => strLt a b = true) := by
  induction l with
  | nil => simp [uniqueSortedKeys]
  | cons a as ih => exact pairwise_insertKey a (uniqueSortedKeys as) ih

/-- The grouping keys are exactly the item ids that occur. -/
theorem mem_usk (a : String) (l : List String) :
    a ∈ uniqueSortedKeys l ↔ a ∈ l := by
  induction l with
  | nil => simp [uniqueSortedKeys]
  | cons b bs ih =>
    show a ∈ insertKey b (uniqueSortedKeys bs) ↔ _
    rw [mem_insertKey, ih]
    simp

/-- The grouping keys are duplicate-free. -/
theorem usk_nodup (l : List String) : (uniqueSortedKeys l).Nodup :=
  (usk_pairwise l).imp (fun h => strLt_ne h)

/-- Grouping an already strictly sorted key list is the identity. -/
theorem usk_of_chain (l : List String)
    (hl : l.Pairwise (fun a b => strLt a b = true)) :
    uniqueSortedKeys l = l := by
  induction l with
  | nil => rfl
  | cons a as ih =>
    rcases List.pairwise_cons.1 hl with ⟨ha, has⟩
    show insertKey a (uniqueSortedKeys as) = a :: as
    rw [ih has]
    rcases as with _ | ⟨b, bs⟩
    · rfl
    · rw [insertKey, if_pos (ha b (List.mem_cons_self b bs))]

/-- The item ids of the grouped table are the sorted unique keys. -/
theorem groupTable_items (rows : List CanonRow) :
    (groupTable rows).map (fun r => r.item) =
      uniqueSortedKeys (rows.map (fun r => r.item)) := by
  rw [groupTable, List.map_map]
  exact (List.map_congr_left (fun k _ => rfl)).trans (List.map_id _)

/-- Filtering a duplicate-free table for one of its rows' ids yields that
row alone. -/
theorem filter_single_of_nodup (rows : List CanonRow)
    (hn : (rows.map (fun r => r.item)).Nodup) (r : CanonRow) (hr : r ∈ rows) :
    rows.filter (fun x => x.item == r.item) = [r] := by
  induction rows with
  | nil => cases hr
  | cons y ys ih =>
    rcases List.nodup_cons.1 hn with ⟨hy, hys⟩
    rcases List.mem_cons.1 hr with rfl | hr
    · rw [List.filter_cons_of_pos (by simp)]
      have : ys.filter (fun x => x.item == r.item) = [] := by
        rw [List.filter_eq_nil_iff]
        intro x hx h
        exact hy (List.mem_map.2 ⟨x, hx, by simpa using h⟩)
      rw [this]
    · rw [List.filter_cons_of_neg, ih hys hr]
      intro h
      apply hy
      have hyi : y.item = r.item := by simpa using h
      show y.item ∈ List.map (fun x => x.item) ys
      rw [hyi]
      exact List.mem_map.2 ⟨r, hr, rfl⟩

/-- Aggregating the group of a row of a duplicate-free table returns that
row. -/
theorem aggGroup_self (rows : List CanonRow)
    (hn : (rows.map (fun r => r.item)).Nodup) (r : CanonRow) (hr : r ∈ rows) :
    aggGroup rows r.item = r := by
  rw [aggGroup, filter_single_of_nodup rows hn r hr]
  rcases r with ⟨i, q, d, u⟩
  simp

/-- Grouping a table whose item ids are already strictly sorted is the
identity. -/
theorem groupTable_id (rows : List CanonRow)
    (hs : (rows.map (fun r => r.item)).Pairwise (fun a b => strLt a b = true)) :
    groupTable rows = rows := by
  have hn : (rows.map (fun r => r.item)).Nodup := hs.imp (fun h => strLt_ne h)
  rw [groupTable, usk_of_chain _ hs, List.map_map]
  exact (List.map_congr_left (fun r hr => aggGroup_self rows hn r hr)).trans
    (List.map_id rows)

/-- Rounding an integer is the identity. -/
theorem roundHalfEven_intCast (z : ℤ) : roundHalfEven (z : ℚ) = z := by
  rw [roundHalfEven]
  norm_num

/-- Rounding to `n` decimals twice equals rounding once. -/
theorem roundTo_idem (n : ℕ) (x : ℚ) : roundTo n (roundTo n x) = roundTo n x := by
  rw [roundTo, roundTo]
  have h10 : ((10 : ℚ) ^ n) ≠ 0 := by positivity
  rw [div_mul_cancel₀ _ h10, roundHalfEven_intCast]

/-- The rounding stage keeps item ids. -/
theorem roundStage_items (acc : ℕ) (rows : List CanonRow) :
    (roundStage acc rows).map (fun r => r.item) = rows.map (fun r => r.item) := by
  rw [roundStage, List.map_map]
  exact List.map_congr_left (fun r _ => rfl)

/-- The drop stage removes rows, keeping the rest in order. -/
theorem dropStage_sublist (cfg : Config) (rows : List CanonRow) :
    (dropStage cfg rows).Sublist rows := by
  rw [dropStage_eq_filter]
  by_cases h : cfg.drop
  · rw [if_pos h]
    exact List.filter_sublist rows
  · rw [if_neg h]

/-- Dropping twice equals dropping once. -/
theorem dropStage_idem (cfg : Config) (rows : List CanonRow) :
    dropStage cfg (dropStage cfg rows) = dropStage cfg rows := by
  rw [dropStage_eq_filter cfg (dropStage cfg rows), dropStage_eq_filter cfg rows]
  by_cases h : cfg.drop
  · simp only [if_pos h, List.filter_filter]
    exact List.filter_congr (fun a _ => by rw [Bool.and_self])
  · simp only [if_neg h]

/-- Every row of the normalizer's output is the aggregate of one group key:
quantities summed then rounded, description and unit from the group's first
row. -/
theorem convert_mem_structure (cfg : Config) (t : SwTable) (r : CanonRow)
    (hr : r ∈ convert_sw_bom_to_sl_format cfg t) :
    ∃ k ∈ uniqueSortedKeys ((convertRows cfg t).map (fun x => x.item)),
      r = { item := k,
            q := roundTo cfg.accuracy
              (((convertRows cfg t).filter (fun x => x.item == k)).map (fun x => x.q)).sum,
            descrip := (((convertRows cfg t).filter (fun x => x.item == k)).head?.map
              (fun x => x.descrip)).getD "",
            um := (((convertRows cfg t).filter (fun x => x.item == k)).head?.map
              (fun x => x.um)).getD "" } := by
  have hr2 : r ∈ roundStage cfg.accuracy (groupTable (convertRows cfg t)) :=
    (dropStage_sublist cfg _).subset hr
  rcases List.mem_map.1 hr2 with ⟨g, hg, rfl⟩
  rcases List.mem_map.1 hg with ⟨k, hk, rfl⟩
  exact ⟨k, hk, rfl⟩

/-- A key of the grouped table names a nonempty group. -/
theorem group_head_some (rows : List CanonRow) (k : String)
    (hk : k ∈ rows.map (fun x => x.item)) :
    ∃ h0, (rows.filter (fun x => x.item == k)).head? = some h0 := by
  obtain ⟨x, hx, hxk⟩ := List.mem_map.1 hk
  have hxf : x ∈ rows.filter (fun y => y.item == k) :=
    List.mem_filter.2 ⟨hx, by simp [hxk]⟩
  rcases hh : (rows.filter (fun y => y.item == k)).head? with _ | h0
  · rw [List.head?_eq_none_iff.1 hh] at hxf
    cases hxf
  · exact ⟨h0, hh⟩

/-- C7: after `convert_sw_bom_to_sl_format`, exactly one row exists per
distinct item id: the output item ids are duplicate-free, and every output
row carries the rounded sum of its group's quantities with the description
and unit of the group's first row; the claim's instance — two rows with one
item id and quantities 3 and 4 — becomes one row with quantity 7. -/
theorem C7_unique_item_rows :
    (∀ (cfg : Config) (t : SwTable),
        ((convert_sw_bom_to_sl_format cfg t).map (fun r => r.item)).Nodup) ∧
    (∀ (cfg : Config) (t : SwTable) (r : CanonRow),
        r ∈ convert_sw_bom_to_sl_format cfg t →
        r.q = roundTo cfg.accuracy
          (((convertRows cfg t).filter (fun x => x.item == r.item)).map (fun x => x.q)).sum ∧
        ((convertRows cfg t).filter (fun x => x.item == r.item)).head?.map
          (fun x => x.descrip) = some r.descrip ∧
        ((convertRows cfg t).filter (fun x => x.item == r.item)).head?.map
          (fun x => x.um) = some r.um) ∧
    convert_sw_bom_to_sl_format
        { accuracy := 2, discard_length := ["3086-*"], drop := false,
          exceptions := [], from_um := "inch", to_um := "feet" }
        { rows := [{ item := "X", qty := 3, descrip := "d", length := 0 },
                   { item := "X", qty := 4, descrip := "d", length := 0 }],
          hasLength := false } =
      [{ item := "X", q := 7, descrip := "d", um := "EA" }] := by
  refine ⟨?_, ?_, ?_⟩
  · intro cfg t
    have h1 : ((convert_sw_bom_to_sl_format cfg t).map (fun r => r.item)).Sublist
        ((roundStage cfg.accuracy (groupTable (convertRows cfg t))).map (fun r => r.item)) :=
      (dropStage_sublist cfg _).map _
    rw [roundStage_items, groupTable_items] at h1
    exact (usk_nodup _).sublist h1
  · intro cfg t r hr
    obtain ⟨k, hk, rfl⟩ := convert_mem_structure cfg t r hr
    have hkm : k ∈ (convertRows cfg t).map (fun x => x.item) := (mem_usk k _).1 hk
    obtain ⟨h0, hh0⟩ := group_head_some (convertRows cfg t) k hkm
    refine ⟨rfl, ?_, ?_⟩
    · show ((convertRows cfg t).filter (fun x => x.item == k)).head?.map
        (fun x => x.descrip) = some ((((convertRows cfg t).filter
          (fun x => x.item == k)).head?.map (fun x => x.descrip)).getD "")
      rw [hh0]
      rfl
    · show ((convertRows cfg t).filter (fun x => x.item == k)).head?.map
        (fun x => x.um) = some ((((convertRows cfg t).filter
          (fun x => x.item == k)).head?.map (fun x => x.um)).getD "")
      rw [hh0]
      rfl
  · have hXX : strLt "X" "X" = false := by decide
    norm_num [convert_sw_bom_to_sl_format, convertRows, dropStage, roundStage, groupTable,
      uniqueSortedKeys, insertKey, aggGroup, is_in, roundTo, roundHalfEven, hXX]

/-- C7 witness: the aggregation law applied at the claim's two-row
instance; the single output row carries the rounded sum 7 and the first
row's description and unit. -/
theorem C7_unique_item_rows_witness :
    ({ item := "X", q := 7, descrip := "d", um := "EA" } : CanonRow).q =
      roundTo 2 (((convertRows
        { accuracy := 2, discard_length := ["3086-*"], drop := false,
          exceptions := [], from_um := "inch", to_um := "feet" }
        { rows := [{ item := "X", qty := 3, descrip := "d", length := 0 },
                   { item := "X", qty := 4, descrip := "d", length := 0 }],
          hasLength := false }).filter
        (fun x => x.item == ({ item := "X", q := 7, descrip := "d", um := "EA" } : CanonRow).item)).map
        (fun x => x.q)).sum ∧
    ((convertRows
        { accuracy := 2, discard_length := ["3086-*"], drop := false,
          exceptions := [], from_um := "inch", to_um := "feet" }
        { rows := [{ item := "X", qty := 3, descrip := "d", length := 0 },
                   { item := "X", qty := 4, descrip := "d", length := 0 }],
          hasLength := false }).filter
      (fun x => x.item == ({ item := "X", q := 7, descrip := "d", um := "EA" } : CanonRow).item)).head?.map
      (fun x => x.descrip) = some ({ item := "X", q := 7, descrip := "d", um := "EA" } : CanonRow).descrip ∧
    ((convertRows
        { accuracy := 2, discard_length := ["3086-*"], drop := false,
          exceptions := [], from_um := "inch", to_um := "feet" }
        { rows := [{ item := "X", qty := 3, descrip := "d", length := 0 },
                   { item := "X", qty := 4, descrip := "d", length := 0 }],
          hasLength := false }).filter
      (fun x => x.item == ({ item := "X", q := 7, descrip := "d", um := "EA" } : CanonRow).item)).head?.map
      (fun x => x.um) = some ({ item := "X", q := 7, descrip := "d", um := "EA" } : CanonRow).um :=
  C7_unique_item_rows.2.1
    { accuracy := 2, discard_length := ["3086-*"], drop := false,
      exceptions := [], from_um := "inch", to_um := "feet" }
    { rows := [{ item := "X", qty := 3, descrip := "d", length := 0 },
               { item := "X", qty := 4, descrip := "d", length := 0 }],
      hasLength := false }
    { item := "X", q := 7, descrip := "d", um := "EA" }
    (by rw [C7_unique_item_rows.2.2]; exact List.mem_singleton.2 rfl)

/-- C9 counterexample: normalizing a one-row table with a 24-inch length
yields the canonical row `(P1, 2, pipe, FT)`; normalizing that canonical
table a second time yields `(P1, 2, pipe, EA)` — the unit column is reset
to `"EA"` because the output has no `LENGTH` column, so the second pass
overwrites every unit. -/
theorem C9_idempotence_counterexample :
    convert_sw_bom_to_sl_format
        { accuracy := 2, discard_length := [], drop := false, exceptions := [],
          from_um := "inch", to_um := "feet" }
        { rows := [{ item := "P1", qty := 1, descrip := "pipe", length := 24 }],
          hasLength := true } =
      [{ item := "P1", q := 2, descrip := "pipe", um := "FT" }] ∧
    convert_sw_bom_to_sl_format
        { accuracy := 2, discard_length := [], drop := false, exceptions := [],
          from_um := "inch", to_um := "feet" }
        (toSwTable [{ item := "P1", q := 2, descrip := "pipe", um := "FT" }]) =
      [{ item := "P1", q := 2, descrip := "pipe", um := "EA" }] ∧
    ([{ item := "P1", q := 2, descrip := "pipe", um := "EA" }] : List CanonRow) ≠
      [{ item := "P1", q := 2, descrip := "pipe", um := "FT" }] := by
  have hf : create_um_factor { accuracy := 2, discard_length := [], drop := false, exceptions := [], from_um := "inch", to_um := "feet" } = 1/12 := by
    rw [create_um_factor, show from_um_factor "inch" = 1/12 from rfl,
      show to_um_factor "feet" = (1:ℚ)⁻¹ from rfl]
    norm_num
  refine ⟨?_, ?_, by simp⟩
  · norm_num [convert_sw_bom_to_sl_format, convertRows, dropStage, roundStage, groupTable,
      uniqueSortedKeys, insertKey, aggGroup, is_in, hf, roundTo, roundHalfEven]
  · norm_num [convert_sw_bom_to_sl_format, convertRows, dropStage, roundStage, groupTable,
      uniqueSortedKeys, insertKey, aggGroup, is_in, toSwTable, toSwRow, roundTo, roundHalfEven]

/-- C9 (amended): re-normalizing an already canonical table (the
normalizer's own output, viewed again as an input without a `LENGTH`
column) yields an identical table whenever every unit of the canonical
table is `"EA"`; a canonical table containing a `"FT"` unit is not a fixed
point — the second pass resets its unit column to `"EA"` (see the
counterexample). -/
theorem C9_idempotence_amended :
    ∀ (cfg : Config) (t : SwTable),
      (∀ r ∈ convert_sw_bom_to_sl_format cfg t, r.um = "EA") →
      convert_sw_bom_to_sl_format cfg (toSwTable (convert_sw_bom_to_sl_format cfg t)) =
        convert_sw_bom_to_sl_format cfg t := by
  intro cfg t hEA
  have h0 : convertRows cfg (toSwTable (convert_sw_bom_to_sl_format cfg t)) =
      convert_sw_bom_to_sl_format cfg t := by
    show ((convert_sw_bom_to_sl_format cfg t).map toSwRow).map
        (fun r => { item := r.item, q := r.qty, descrip := r.descrip, um := "EA" }) =
      convert_sw_bom_to_sl_format cfg t
    rw [List.map_map]
    refine (List.map_congr_left ?_).trans (List.map_id _)
    intro r hr
    have hu := hEA r hr
    rcases r with ⟨i, q, d, u⟩
    simp_all [toSwRow]
  have hpair : ((convert_sw_bom_to_sl_format cfg t).map (fun r => r.item)).Pairwise
      (fun a b => strLt a b = true) := by
    have h1 : ((convert_sw_bom_to_sl_format cfg t).map (fun r => r.item)).Sublist
        ((roundStage cfg.accuracy (groupTable (convertRows cfg t))).map (fun r => r.item)) :=
      (dropStage_sublist cfg _).map _
    rw [roundStage_items, groupTable_items] at h1
    exact (usk_pairwise _).sublist h1
  have hgroup : groupTable (convert_sw_bom_to_sl_format cfg t) =
      convert_sw_bom_to_sl_format cfg t := groupTable_id _ hpair
  have hround : roundStage cfg.accuracy (convert_sw_bom_to_sl_format cfg t) =
      convert_sw_bom_to_sl_format cfg t := by
    rw [roundStage]
    refine (List.map_congr_left ?_).trans (List.map_id _)
    intro r hr
    obtain ⟨k, _, hrfl⟩ := convert_mem_structure cfg t r hr
    have hq : roundTo cfg.accuracy r.q = r.q := by
      rw [hrfl]
      exact roundTo_idem _ _
    rw [hq]
    rfl
  have hdrop : dropStage cfg (convert_sw_bom_to_sl_format cfg t) =
      convert_sw_bom_to_sl_format cfg t :=
    dropStage_idem cfg (roundStage cfg.accuracy (groupTable (convertRows cfg t)))
  calc convert_sw_bom_to_sl_format cfg (toSwTable (convert_sw_bom_to_sl_format cfg t))
      = dropStage cfg (roundStage cfg.accuracy (groupTable
          (convertRows cfg (toSwTable (convert_sw_bom_to_sl_format cfg t))))) := rfl
    _ = dropStage cfg (roundStage cfg.accuracy (groupTable
          (convert_sw_bom_to_sl_format cfg t))) := by rw [h0]
    _ = dropStage cfg (roundStage cfg.accuracy (convert_sw_bom_to_sl_format cfg t)) := by
          rw [hgroup]
    _ = dropStage cfg (convert_sw_bom_to_sl_format cfg t) := by rw [hround]
    _ = convert_sw_bom_to_sl_format cfg t := hdrop

/-- C9 witness: the amended idempotence applied at the empty table, whose
canonical form (trivially all-`"EA"`) is a fixed point of the normalizer. -/
theorem C9_idempotence_amended_witness :
    convert_sw_bom_to_sl_format
        { accuracy := 2, discard_length := ["3086-*"], drop := false,
          exceptions := [], from_um := "inch", to_um := "feet" }
        (toSwTable (convert_sw_bom_to_sl_format
          { accuracy := 2, discard_length := ["3086-*"], drop := false,
            exceptions := [], from_um := "inch", to_um := "feet" }
          { rows := [], hasLength := false })) =
      convert_sw_bom_to_sl_format
        { accuracy := 2, discard_length := ["3086-*"], drop := false,
          exceptions := [], from_um := "inch", to_um := "feet" }
        { rows := [], hasLength := false } :=
  C9_idempotence_amended
    { accuracy := 2, discard_length := ["3086-*"], drop := false,
      exceptions := [], from_um := "inch", to_um := "feet" }
    { rows := [], hasLength := false }
    (fun r hr => absurd hr (by
      rw [show convert_sw_bom_to_sl_format
          { accuracy := 2, discard_length := ["3086-*"], drop := false,
            exceptions := [], from_um := "inch", to_um := "feet" }
          { rows := [], hasLength := false } = [] from rfl]
      exact List.not_mem_nil r))

end Bomcheck
